import Mathlib

/-!
Verification of the file-selection engine of `migration_prep.py`.

The development shallowly embeds the program's pure decision functions
(`fnmatch` glob matching, the static rule sets, `should_skip_file`,
`should_skip_directory`, `load_gitignore_patterns`) and its recursive
traversal `backup_directory` as Lean functions over an abstract
filesystem tree, and proves the specified classification, precedence,
scoping, pruning, depth-limit and error-handling properties.
-/

namespace MigrationPrep

/-! ## Pattern matcher: embedding of Python `fnmatch.fnmatch` (POSIX case)

Python's `fnmatch.fnmatch(name, pattern)` performs anchored shell-glob
matching of the whole `name` against the whole `pattern`, supporting
`*` (any run of characters, including none), `?` (exactly one character)
and bracket character classes `[...]` / `[!...]` with `-` ranges
(a leading `]` is part of the class; an unterminated `[` matches a
literal `[`; a degenerate range with reversed bounds matches nothing).
On POSIX `os.path.normcase` is the identity, so matching is
case-sensitive. -/

/-- Scan a character-class body up to the closing `]`: returns the class
body and the remainder of the pattern, or `none` when no closing `]`
exists. -/

def spanClass : List Char → Option (List Char × List Char)
  | [] => none
  | c :: rest =>
    if c = ']' then some ([], rest)
    else
      match spanClass rest with
      | some (body, rest') => some (c :: body, rest')
      | none => none

/-- Scan a class whose optional negation marker has already been
stripped: a leading `]` is a literal member of the class. -/

def classScan (neg : Bool) (t : List Char) : Option (Bool × List Char × List Char) :=
  match t with
  | [] => none
  | c :: r =>
    if c = ']' then
      match spanClass r with
      | some (body, rest) => some (neg, ']' :: body, rest)
      | none => none
    else
      match spanClass (c :: r) with
      | some (body, rest) => some (neg, body, rest)
      | none => none

/-- Parse the part of a pattern right after an opening `[`: strips an
optional leading `!` (negation), then scans the class. Returns
(negated, class body, rest of pattern), or `none` when the class is
unterminated (the `[` then matches literally). -/

def splitClass (l : List Char) : Option (Bool × List Char × List Char) :=
  if l.head? = some '!' then classScan true l.tail else classScan false l

/-- Membership of a character in a class body, honouring `-` ranges
(`-` at the start or end of the body is literal; a reversed range
matches nothing). -/

def inClass : List Char → Char → Bool
  | a :: '-' :: b :: rest, c => (a ≤ c && c ≤ b) || inClass rest c
  | a :: rest, c => a == c || inClass rest c
  | [], _ => false

/-- Core glob matcher on character lists, fuel-indexed so that it is
structurally recursive (and hence kernel-reducible): each recursive call
strictly decreases `pattern.length + name.length`, so any fuel above
that sum computes the total matching function
(`globMatchF_fuel_irrelevant` below). -/

def globMatchF : Nat → List Char → List Char → Bool
  | 0, _, _ => false
  | _ + 1, [], s => s.isEmpty
  | fuel + 1, p :: ps, s =>
    if p = '*' then
      globMatchF fuel ps s ||
        (match s with
         | [] => false
         | _ :: cs => globMatchF fuel ('*' :: ps) cs)
    else if p = '?' then
      (match s with
       | [] => false
       | _ :: cs => globMatchF fuel ps cs)
    else if p = '[' then
      (match splitClass ps with
       | some (neg, body, rest) =>
         (match s with
          | [] => false
          | c :: cs => (inClass body c != neg) && globMatchF fuel rest cs)
       | none =>
         -- unterminated class: the '[' matches literally
         (match s with
          | [] => false
          | c :: cs => (c == '[') && globMatchF fuel ps cs))
    else
      (match s with
       | [] => false
       | c :: cs => (p == c) && globMatchF fuel ps cs)

/-- Core glob matcher on character lists: `globMatch pattern name`. -/

def globMatch (p s : List Char) : Bool :=
  globMatchF (p.length + s.length + 1) p s

/-- Embedding of `fnmatch.fnmatch(name, pattern)` on POSIX. -/

def fnmatch (name pattern : String) : Bool :=
  globMatch pattern.toList name.toList

/-! ## Rule Set: the four static collections of `MigrationPrep.__init__`

`skip_dirs` and `keep_dotfiles` are Python `set`s consulted only through
membership / an existential scan, and `skip_patterns` / `keep_patterns`
are lists scanned in order with early return; a Lean `List` scanned with
`any` / `contains` has identical observable behaviour. -/

/-- `self.skip_dirs`: common build/cache directory names to skip. -/

def skip_dirs : List String :=
  ["__pycache__", ".pytest_cache", ".mypy_cache", ".tox", "node_modules",
   ".npm", ".yarn", "dist", "build", "target", ".venv", "venv", "env",
   ".env", "virtualenv", ".git", ".svn", ".hg", ".bzr", ".Rproj.user",
   ".ropeproject", "cmake-build-debug", "cmake-build-release", ".gradle",
   ".m2", ".ivy2", ".cargo/registry", ".cargo/git", "zig-cache", "zig-out",
   ".stack-work", "_build", "deps", "_deps", ".elixir_ls", ".mix",
   "coverage", ".coverage", ".nyc_output", "logs", "*.log", "tmp", "temp",
   ".tmp", ".temp"]

/-- `self.skip_patterns`: common build/temp file patterns to skip. -/

def skip_patterns : List String :=
  ["*.pyc", "*.pyo", "*.pyd", "*.so", "*.dll", "*.dylib", "*.o", "*.obj",
   "*.class", "*.jar", "*.war", "*.beam", "*.plt", "*.exe", "*.app",
   "*.dmg", "*.pkg", "*.deb", "*.rpm", "*.zip", "*.tar.gz", "*.tar.bz2",
   "*.7z", "*.rar", "*.swp", "*.swo", "*~", ".DS_Store", "Thumbs.db",
   "*.tmp", "*.temp", "*.cache", "*.log", "core", "core.*", "*.core",
   "*.lock", "package-lock.json", "yarn.lock", "pnpm-lock.yaml",
   "*.min.js", "*.min.css", "*.map", "*.min.js.map", "*.min.css.map"]

/-- `self.keep_patterns`: important files/patterns to always keep. -/

def keep_patterns : List String :=
  [".*rc", ".*profile", ".*_profile", ".*_history", ".env*", ".environment",
   "environment.*", "*.conf", "*.config", "config.*", "configuration.*",
   ".gitconfig", ".gitignore_global", ".ssh/config", "requirements.txt",
   "Pipfile", "pyproject.toml", "package.json", "Cargo.toml", "mix.exs",
   "build.zig", "Makefile", "CMakeLists.txt", "Dockerfile*", "flake.nix",
   "shell.nix", "default.nix", "*.md", "*.rst", "*.txt", "LICENSE*",
   "README*", "tsconfig.json", "webpack.config.js", "vite.config.*"]

/-- `self.keep_dotfiles`: important dotfiles/directories to keep. -/

def keep_dotfiles : List String :=
  [".ssh", ".gnupg", ".gitconfig", ".vimrc", ".nvim", ".bashrc", ".zshrc",
   ".profile", ".bash_profile", ".tmux.conf", ".screenrc", ".inputrc",
   ".config", ".local/share", ".mozilla", ".thunderbird", ".aws",
   ".docker", ".kube", ".terraform.d", ".cargo/config.toml",
   ".rustup/settings.toml", ".npmrc", ".yarnrc", ".pip", ".poetry",
   ".mix", ".hex", ".iex.exs", ".emacs.d", ".doom.d", ".spacemacs.d"]

/-! ## Gitignore loading and the Classifier -/

/-- Embedding of Python `str.startswith(prefix)`: the prefix's
characters are an initial segment of the string's characters. (Defined
on character lists so that it reduces inside the kernel.) -/

def startswith (s pre : String) : Bool :=
  pre.toList.isPrefixOf s.toList

/-- Embedding of Python `str.strip()`: drops leading and trailing
whitespace characters. (Defined on character lists so that it reduces
inside the kernel.) -/

def strip (s : String) : String :=
  ⟨((s.toList.dropWhile Char.isWhitespace).reverse.dropWhile
      Char.isWhitespace).reverse⟩

/-- The state of a directory's `.gitignore` file in the filesystem model:
absent, readable with the given lines, or present but unreadable (the
read raises and is caught inside `load_gitignore_patterns`, which then
returns only what was collected before the failure — nothing, when the
failure is at `open`, the case modelled here). -/

inductive GitFile : Type
  | absent : GitFile
  | readable : List String → GitFile
  | unreadable : GitFile
deriving DecidableEq, Repr

/-- Embedding of `load_gitignore_patterns`: each line is stripped of
surrounding whitespace and kept
when non-blank and not a `#` comment. A missing or unreadable file
yields no patterns; a read failure is caught inside this function
(logged as a warning), so it never raises to the caller. Python collects
the patterns into a `set`; since patterns are only ever consulted by an
existential scan, a list is an equivalent embedding. -/

def load_gitignore_patterns : GitFile → List String
  | GitFile.absent => []
  | GitFile.unreadable => []
  | GitFile.readable lines =>
    (lines.map strip).filter (fun l => l ≠ "" && ¬ startswith l "#")

/-- Embedding of `should_skip_file`. `filename` is `file_path.name` and
`relative_path` is `str(file_path.relative_to(self.source_dir))`; both
are supplied by the traversal. The body is the source's cascade:
keep-patterns on the bare filename first (return `false`), then the
active gitignore patterns on the relative path or the bare filename
(return `true`), then skip-patterns on the bare filename (return
`true`), else `false`. -/

def should_skip_file (filename relative_path : String)
    (gitignore_patterns : List String) : Bool :=
  if keep_patterns.any (fun pattern => fnmatch filename pattern) then
    false
  else if gitignore_patterns.any (fun pattern =>
      fnmatch relative_path pattern || fnmatch filename pattern) then
    true
  else if skip_patterns.any (fun pattern => fnmatch filename pattern) then
    true
  else
    false

/-- Embedding of `should_skip_directory`. `dirname` is `dir_path.name`
and `relative_path` is `str(dir_path.relative_to(self.source_dir))`.
The body is the source's cascade: keep-dotfiles first (relative path
prefix or exact bare-name equality, return `false`), then exact
membership of the bare name in `skip_dirs` (return `true`), then
skip-patterns globs on the bare name (return `true`), else `false`. -/

def should_skip_directory (dirname relative_path : String) : Bool :=
  if keep_dotfiles.any (fun keep_pattern =>
      startswith relative_path keep_pattern || dirname == keep_pattern) then
    false
  else if skip_dirs.contains dirname then
    true
  else if skip_patterns.any (fun pattern => fnmatch dirname pattern) then
    true
  else
    false

/-! ## Specification-side classifier cascades (for the refinement claims)

These two definitions transcribe §4.3 of the specification word for
word; the theorems below compare them with the embeddings of the
source. -/

/-- The `should_skip_file` cascade as the specification words it:
1. filename matches a Keep-pattern → keep; 2. filename or
source-relative path matches an active gitignore pattern → skip;
3. filename matches a Skip-pattern → skip; 4. keep. -/

def should_skip_file_spec (filename relative_path : String)
    (gitignore_patterns : List String) : Bool :=
  if keep_patterns.any (fun pattern => fnmatch filename pattern) then
    false
  else if gitignore_patterns.any (fun pattern =>
      fnmatch filename pattern || fnmatch relative_path pattern) then
    true
  else if skip_patterns.any (fun pattern => fnmatch filename pattern) then
    true
  else
    false

/-- The `should_skip_directory` cascade as the specification words it:
1. bare name equals a Keep-dotfile entry, or the source-relative path
starts with one → keep; 2. bare name is exactly in Skip-dirs → skip;
3. bare name matches a Skip-pattern glob → skip; 4. keep. -/

def should_skip_directory_spec (dirname relative_path : String) : Bool :=
  if keep_dotfiles.any (fun k => dirname == k || startswith relative_path k) then
    false
  else if skip_dirs.contains dirname then
    true
  else if skip_patterns.any (fun pattern => fnmatch dirname pattern) then
    true
  else
    false

end MigrationPrep

namespace MigrationPrep.Traversal

/-! ## Traversal Engine: embedding of `backup_directory`

The filesystem is abstracted as a tree of entries. Each directory node
carries the state of its own `.gitignore` file, a flag telling whether
enumerating its entries (`src_dir.iterdir()`) raises, and its children.
A file carries its size and a flag telling whether `copy_file_safely`'s
copy raises for it. A symbolic link carries the kind of its target
(nonexistent, directory, or file). `FSEntry.raising` models an entry
whose per-item processing raises (e.g. `PermissionError` on `is_file`),
caught by the per-item handler. -/

/-- Target of a symbolic link, as the traversal observes it through
`item.exists()` / `item.is_file()`. -/

inductive SymTarget : Type
  | broken : SymTarget
  | toDir : SymTarget
  | toFile (size : Nat) (copyFails : Bool) : SymTarget
deriving DecidableEq, Repr

/-- One filesystem entry of the abstract source tree. -/

inductive FSEntry : Type
  | file (name : String) (size : Nat) (copyFails : Bool) : FSEntry
  | dir (name : String) (git : GitFile) (scanFails : Bool)
      (children : List FSEntry) : FSEntry
  | symlink (name : String) (target : SymTarget) : FSEntry
  | raising (name : String) : FSEntry
deriving Repr

/-- The observable outcome of (part of) a run: the four counters of
`self.stats`, plus ghost logs of the performed/decided actions — the
source-relative paths of files copied, the `should_skip_file` decisions
taken (path, decision), the directories whose `.gitignore` was loaded,
and the directories for which the depth warning fired. -/

structure Trace : Type where
  copied : Nat
  skipped : Nat
  errors : Nat
  size_copied : Nat
  copies : List (List String)
  classified : List (List String × Bool)
  loads : List (List String)
  warns : List (List String)
deriving DecidableEq, Repr

/-- The empty trace: nothing happened. -/

def Trace.nil : Trace := ⟨0, 0, 0, 0, [], [], [], []⟩

/-- Sequencing of traces: counters add, logs concatenate. -/

def Trace.app (a b : Trace) : Trace :=
  ⟨a.copied + b.copied, a.skipped + b.skipped, a.errors + b.errors,
   a.size_copied + b.size_copied, a.copies ++ b.copies,
   a.classified ++ b.classified, a.loads ++ b.loads, a.warns ++ b.warns⟩

/-- `str(PurePosixPath(...))` of a source-relative path given by its
components. -/

def joinPath : List String → String
  | [] => ""
  | [x] => x
  | x :: xs => x ++ "/" ++ joinPath xs

/-- Embedding of `copy_file_safely src dst` for the file at
source-relative path `rel`: on success `copied` and `size_copied` grow,
on failure the exception is caught inside and `errors` grows. -/

def copy_file_safely (rel : List String) (size : Nat) (copyFails : Bool) : Trace :=
  if copyFails then ⟨0, 0, 1, 0, [], [], [], []⟩
  else ⟨1, 0, 0, size, [rel], [], [], []⟩

/-- The `is_file` arm of the loop body: classify with
`should_skip_file`; if kept, copy (the classification decision is
recorded in the ghost `classified` log). -/

def handleFile (relDir : List String) (patterns : List String) (name : String)
    (size : Nat) (copyFails : Bool) : Trace :=
  if should_skip_file name (joinPath (relDir ++ [name])) patterns then
    ⟨0, 1, 0, 0, [], [(relDir ++ [name], true)], [], []⟩
  else
    Trace.app ⟨0, 0, 0, 0, [], [(relDir ++ [name], false)], [], []⟩
      (copy_file_safely (relDir ++ [name]) size copyFails)

mutual

/-- Embedding of `backup_directory(src_dir, dst_dir, level)` processing
the directory at source-relative path `relDir` whose `.gitignore` state
is `git`, whose enumeration raises iff `scanFails`, and whose entries
are `children`. Beyond depth 10 it only logs a warning; otherwise it
loads the directory's own gitignore patterns and iterates over the
entries; an enumeration failure is caught by the outer handler and
counted once in `errors`. -/

def backup_directory (relDir : List String) (git : GitFile) (scanFails : Bool)
    (children : List FSEntry) (level : Nat) : Trace :=
  if 10 < level then
    ⟨0, 0, 0, 0, [], [], [], [relDir]⟩
  else
    Trace.app ⟨0, 0, 0, 0, [], [], [relDir], []⟩
      (if scanFails then ⟨0, 0, 1, 0, [], [], [], []⟩
       else processChildren relDir (load_gitignore_patterns git) level children)
termination_by (sizeOf children, 1)

/-- The `for item in src_dir.iterdir()` loop. -/

def processChildren (relDir : List String) (patterns : List String)
    (level : Nat) : List FSEntry → Trace
  | [] => Trace.nil
  | e :: es =>
    Trace.app (processEntry relDir patterns level e)
      (processChildren relDir patterns level es)
termination_by es => (sizeOf es, 0)

/-- The body of the loop for one entry (the inner `try`): symlinks to
files are classified and copied as regular files, symlinks to
directories or nonexistent targets are passed over; regular files are
classified and copied or counted skipped; directories are classified
with `should_skip_directory` and either recursed into at `level + 1` or
counted skipped; a raising entry is caught here and counted once in
`errors`. -/

def processEntry (relDir : List String) (patterns : List String)
    (level : Nat) : FSEntry → Trace
  | FSEntry.file name size copyFails =>
    handleFile relDir patterns name size copyFails
  | FSEntry.symlink name target =>
    (match target with
     | SymTarget.broken => Trace.nil
     | SymTarget.toDir => Trace.nil
     | SymTarget.toFile size copyFails =>
       handleFile relDir patterns name size copyFails)
  | FSEntry.raising _ => ⟨0, 0, 1, 0, [], [], [], []⟩
  | FSEntry.dir name git scanFails ch =>
    if should_skip_directory name (joinPath (relDir ++ [name])) then
      ⟨0, 1, 0, 0, [], [], [], []⟩
    else
      backup_directory (relDir ++ [name]) git scanFails ch (level + 1)
termination_by e => (sizeOf e, 0)

end

/-- Embedding of `run_backup` on an existing source root: the top-level
call `backup_directory(self.source_dir, self.backup_dir, 0)`. -/

def run_backup (git : GitFile) (scanFails : Bool) (children : List FSEntry) : Trace :=
  backup_directory [] git scanFails children 0

/-- Embedding of `main`'s action selection: with `--dry-run` the backup
is not run at all — only two fixed log messages are emitted — otherwise
`run_backup` runs. -/

def mainTrace (dry_run : Bool) (git : GitFile) (scanFails : Bool)
    (children : List FSEntry) : Trace :=
  if dry_run then Trace.nil else run_backup git scanFails children

/-! ## C4: per-directory gitignore scoping -/

/-- The classification events of a trace whose parent directory is NOT
`target`: the decisions taken for files other than `target`'s direct
entries. -/

def classifiedOutside (target : List String) (t : Trace) :
    List (List String × Bool) :=
  t.classified.filter (fun ev => !(ev.1.dropLast == target))

/-- Two source trees identical except for the `.gitignore` content of
the single directory at relative path `P` (components below the
reference directory, ending at the changed directory). -/

inductive GitDiffAt : List String → FSEntry → FSEntry → Prop
  | here (name : String) (g1 g2 : GitFile) (scanFails : Bool)
      (ch : List FSEntry) :
      GitDiffAt [name] (FSEntry.dir name g1 scanFails ch)
        (FSEntry.dir name g2 scanFails ch)
  | deeper (name : String) (git : GitFile) (scanFails : Bool)
      (pre post : List FSEntry) (P : List String) (e1 e2 : FSEntry) :
      GitDiffAt P e1 e2 →
      GitDiffAt (name :: P)
        (FSEntry.dir name git scanFails (pre ++ e1 :: post))
        (FSEntry.dir name git scanFails (pre ++ e2 :: post))

end MigrationPrep.Traversal

namespace MigrationPrep

theorem spanClass_length : ∀ (l body rest : List Char),
    spanClass l = some (body, rest) → rest.length < l.length := by
  intro l
  induction l with
  | nil => intro body rest h; simp [spanClass] at h
  | cons c cs ih =>
    intro body rest h
    rw [spanClass] at h
    by_cases hc : c = ']'
    · rw [if_pos hc] at h
      cases h
      simp
    · rw [if_neg hc] at h
      cases hsp : spanClass cs with
      | none => rw [hsp] at h; cases h
      | some p =>
        rw [hsp] at h
        cases h
        have := ih p.1 p.2 (by rw [hsp])
        simpa using Nat.lt_succ_of_lt this

theorem classScan_length (neg : Bool) (t : List Char) (n : Bool) (body rest : List Char)
    (h : classScan neg t = some (n, body, rest)) : rest.length < t.length := by
  match t with
  | [] => simp [classScan] at h
  | c :: r =>
    rw [classScan] at h
    by_cases hc : c = ']'
    · rw [if_pos hc] at h
      cases hsp : spanClass r with
      | none => rw [hsp] at h; cases h
      | some p =>
        rw [hsp] at h
        cases h
        have := spanClass_length r p.1 p.2 (by rw [hsp])
        simpa using Nat.lt_succ_of_lt this
    · rw [if_neg hc] at h
      cases hsp : spanClass (c :: r) with
      | none => rw [hsp] at h; cases h
      | some p =>
        rw [hsp] at h
        cases h
        exact spanClass_length (c :: r) p.1 p.2 (by rw [hsp])

theorem splitClass_length (l : List Char) (n : Bool) (body rest : List Char)
    (h : splitClass l = some (n, body, rest)) : rest.length < l.length := by
  rw [splitClass] at h
  by_cases hb : l.head? = some '!'
  · rw [if_pos hb] at h
    have h1 := classScan_length true l.tail n body rest h
    have h2 : l.tail.length ≤ l.length := by
      cases l <;> simp
    omega
  · rw [if_neg hb] at h
    exact classScan_length false l n body rest h

theorem globMatchF_fuel_irrelevant : ∀ (f1 f2 : Nat) (p s : List Char),
    p.length + s.length < f1 → p.length + s.length < f2 →
    globMatchF f1 p s = globMatchF f2 p s := by
  intro f1
  induction f1 with
  | zero => intro f2 p s h1 h2; omega
  | succ g1 ih =>
    intro f2 p s h1 h2
    match f2, h2 with
    | g2 + 1, h2 =>
      match p with
      | [] => rfl
      | p :: ps =>
        simp only [List.length_cons] at h1 h2
        simp only [globMatchF]
        by_cases hstar : p = '*'
        · rw [if_pos hstar, if_pos hstar]
          rw [ih g2 ps s (by omega) (by omega)]
          cases s with
          | nil => rfl
          | cons c cs =>
            simp only [List.length_cons] at h1 h2
            simp only [ih g2 ('*' :: ps) cs (by simp; omega) (by simp; omega)]
        · rw [if_neg hstar, if_neg hstar]
          by_cases hq : p = '?'
          · rw [if_pos hq, if_pos hq]
            cases s with
            | nil => rfl
            | cons c cs =>
              simp only [List.length_cons] at h1 h2
              simp only [ih g2 ps cs (by omega) (by omega)]
          · rw [if_neg hq, if_neg hq]
            by_cases hbr : p = '['
            · rw [if_pos hbr, if_pos hbr]
              cases hsc : splitClass ps with
              | some t =>
                match t, hsc with
                | (neg, body, rest), hsc =>
                  have hlen := splitClass_length ps neg body rest hsc
                  cases s with
                  | nil => rfl
                  | cons c cs =>
                    simp only [List.length_cons] at h1 h2
                    simp only [ih g2 rest cs (by omega) (by omega)]
              | none =>
                cases s with
                | nil => rfl
                | cons c cs =>
                  simp only [List.length_cons] at h1 h2
                  simp only [ih g2 ps cs (by omega) (by omega)]
            · rw [if_neg hbr, if_neg hbr]
              cases s with
              | nil => rfl
              | cons c cs =>
                simp only [List.length_cons] at h1 h2
                simp only [ih g2 ps cs (by omega) (by omega)]

/-- C1: `should_skip_file` evaluates its rules in the fixed order the
specification states (it agrees with the spec-side cascade on every
input), and a filename matching a Keep-pattern is never skipped, no
matter which gitignore or Skip-patterns it also matches. -/

theorem should_skip_file_order (filename relative_path : String)
    (gitignore_patterns : List String) :
    should_skip_file filename relative_path gitignore_patterns =
        should_skip_file_spec filename relative_path gitignore_patterns
    ∧ ((∃ p ∈ keep_patterns, fnmatch filename p = true) →
        should_skip_file filename relative_path gitignore_patterns = false) := by
  constructor
  · unfold should_skip_file should_skip_file_spec
    simp only [Bool.or_comm]
  · intro hkeep
    unfold should_skip_file
    rw [if_pos (by rw [List.any_eq_true]; exact hkeep)]

/-- C1 witness: `README.md` matches keep-pattern `README*`, so it is
kept even when listed verbatim in the active gitignore set. -/

theorem should_skip_file_order_witness :
    should_skip_file "README.md" "README.md" ["README.md"] = false :=
  (should_skip_file_order "README.md" "README.md" ["README.md"]).2
    ⟨"README*", by decide, by decide⟩

/-- C2: `should_skip_directory` evaluates its rules in the fixed order
the specification states (it agrees with the spec-side cascade on every
input), and a directory to which a Keep-dotfile entry applies — by
exact bare-name equality or by source-relative-path prefix — is kept
with highest precedence, even when Skip-dirs or Skip-patterns also
match. -/

theorem should_skip_directory_order (dirname relative_path : String) :
    should_skip_directory dirname relative_path =
        should_skip_directory_spec dirname relative_path
    ∧ ((∃ k ∈ keep_dotfiles,
          startswith relative_path k = true ∨ dirname = k) →
        should_skip_directory dirname relative_path = false) := by
  constructor
  · unfold should_skip_directory should_skip_directory_spec
    simp only [Bool.or_comm]
  · intro hkeep
    unfold should_skip_directory
    rw [if_pos ?_]
    rw [List.any_eq_true]
    obtain ⟨k, hk, hcase⟩ := hkeep
    refine ⟨k, hk, ?_⟩
    cases hcase with
    | inl h => simp [h]
    | inr h => simp [h]

/-- C2 witness: a directory named `.mix` is in Skip-dirs yet is kept
because `.mix` is also a Keep-dotfile entry, and `.ssh/keys` is kept by
the path-prefix rule. -/

theorem should_skip_directory_order_witness :
    should_skip_directory ".mix" ".mix" = false ∧
    should_skip_directory "keys" ".ssh/keys" = false :=
  ⟨(should_skip_directory_order ".mix" ".mix").2 ⟨".mix", by decide, Or.inr rfl⟩,
   (should_skip_directory_order "keys" ".ssh/keys").2 ⟨".ssh", by decide, Or.inl (by decide)⟩⟩

end MigrationPrep

namespace MigrationPrep.Traversal

theorem Trace.app_assoc (a b c : Trace) :
    Trace.app (Trace.app a b) c = Trace.app a (Trace.app b c) := by
  simp [Trace.app, Nat.add_assoc]

theorem Trace.nil_app (t : Trace) : Trace.app Trace.nil t = t := by
  simp [Trace.app, Trace.nil]

theorem classifiedOutside_app (target : List String) (a b : Trace) :
    classifiedOutside target (Trace.app a b) =
      classifiedOutside target a ++ classifiedOutside target b := by
  simp [classifiedOutside, Trace.app, List.filter_append]

/-- A file-classification event produced while processing the direct
entries of `relDir` always has parent `relDir`, so it is never counted
among the events outside `relDir`. -/

theorem classifiedOutside_handleFile (relDir patterns : List String)
    (name : String) (size : Nat) (copyFails : Bool) :
    classifiedOutside relDir
      (handleFile relDir patterns name size copyFails) = [] := by
  unfold handleFile copy_file_safely
  split
  · simp [classifiedOutside]
  · split <;> simp [classifiedOutside, Trace.app]

/-- Processing a directory entry does not depend on the ambient
gitignore pattern set at all: the recursive call reloads its own. -/

theorem processEntry_dir_patterns_irrelevant (relDir p1 p2 : List String)
    (level : Nat) (name : String) (git : GitFile) (scanFails : Bool)
    (ch : List FSEntry) :
    processEntry relDir p1 level (FSEntry.dir name git scanFails ch) =
      processEntry relDir p2 level (FSEntry.dir name git scanFails ch) := by
  simp only [processEntry]

/-- The ambient gitignore pattern set of a directory influences only the
classification of that directory's own direct file entries: the events
outside `relDir` are the same under any two pattern sets. -/

theorem processChildren_classified_outside (relDir p1 p2 : List String)
    (level : Nat) (ch : List FSEntry) :
    classifiedOutside relDir (processChildren relDir p1 level ch) =
      classifiedOutside relDir (processChildren relDir p2 level ch) := by
  induction ch with
  | nil => simp only [processChildren]
  | cons e es ih =>
    simp only [processChildren]
    rw [classifiedOutside_app, classifiedOutside_app, ih]
    congr 1
    cases e with
    | file name size copyFails =>
      simp only [processEntry]
      rw [classifiedOutside_handleFile, classifiedOutside_handleFile]
    | symlink name target =>
      cases target with
      | broken => simp only [processEntry]
      | toDir => simp only [processEntry]
      | toFile size copyFails =>
        simp only [processEntry]
        rw [classifiedOutside_handleFile, classifiedOutside_handleFile]
    | raising name => simp only [processEntry]
    | dir name git scanFails ch2 =>
      rw [processEntry_dir_patterns_irrelevant relDir p1 p2]

/-- The loop is compositional over a split of the entry list. -/

theorem processChildren_append (relDir patterns : List String) (level : Nat)
    (xs ys : List FSEntry) :
    processChildren relDir patterns level (xs ++ ys) =
      Trace.app (processChildren relDir patterns level xs)
        (processChildren relDir patterns level ys) := by
  induction xs with
  | nil => rw [List.nil_append, processChildren, Trace.nil_app]
  | cons e es ih =>
    rw [List.cons_append, processChildren, processChildren, ih, Trace.app_assoc]

/-- C3 counterexample: `.mix` is listed in Skip-dirs, yet a directory
named `.mix` at the source root is NOT skipped, because `.mix` is also
a Keep-dotfile entry and the keep-dotfile rule has higher precedence
than the Skip-dirs rule. -/

theorem skip_dirs_not_always_skipped :
    ".mix" ∈ skip_dirs ∧ should_skip_directory ".mix" ".mix" = false := by
  exact ⟨by decide, by decide⟩

/-- C3 (amended): a directory whose bare name is in Skip-dirs is
skipped provided no Keep-dotfile entry applies to it (none equals the
bare name and none is a prefix of the source-relative path); and
whenever the traversal skips a directory it prunes absolutely: the
resulting trace is exactly one increment of the `skipped` counter — the
directory is not opened, its `.gitignore` is not loaded, and nothing
beneath it is classified, copied, counted or warned about. -/

theorem skip_dirs_pruning (dirname relative_path : String) :
    (dirname ∈ skip_dirs →
      (∀ k ∈ keep_dotfiles, startswith relative_path k = false ∧ dirname ≠ k) →
      should_skip_directory dirname relative_path = true)
    ∧ (∀ (relDir patterns : List String) (level : Nat) (git : GitFile)
        (scanFails : Bool) (ch : List FSEntry),
        should_skip_directory dirname (joinPath (relDir ++ [dirname])) = true →
        processEntry relDir patterns level
            (FSEntry.dir dirname git scanFails ch) =
          ⟨0, 1, 0, 0, [], [], [], []⟩) := by
  constructor
  · intro hmem hkeep
    unfold should_skip_directory
    rw [if_neg ?_, if_pos ?_]
    · exact List.elem_eq_true_of_mem hmem
    · intro hany
      rw [List.any_eq_true] at hany
      obtain ⟨k, hk, hcase⟩ := hany
      have := hkeep k hk
      rw [Bool.or_eq_true] at hcase
      cases hcase with
      | inl h => rw [this.1] at h; cases h
      | inr h => exact this.2 (by simpa using h)
  · intro relDir patterns level git scanFails ch h
    simp only [processEntry]
    rw [if_pos h]

/-- C3 witness: a `node_modules` directory (no keep-dotfile applies) is
skipped, and skipping it contributes exactly one `skipped` increment —
nothing inside it (here a copyable `a.txt` and a readable `.gitignore`)
is loaded, classified, copied or counted. -/

theorem skip_dirs_pruning_witness :
    should_skip_directory "node_modules" "node_modules" = true ∧
    processEntry [] [] 0
        (FSEntry.dir "node_modules" (GitFile.readable ["x"]) false
          [FSEntry.file "a.txt" 3 false]) =
      ⟨0, 1, 0, 0, [], [], [], []⟩ :=
  ⟨(skip_dirs_pruning "node_modules" "node_modules").1 (by decide) (by decide),
   (skip_dirs_pruning "node_modules" "node_modules").2 [] [] 0
     (GitFile.readable ["x"]) false [FSEntry.file "a.txt" 3 false] (by decide)⟩

/-- C4: gitignore scoping is strictly per-directory. If two source
trees differ only in the `.gitignore` of the directory at relative path
`P`, then every classification decision for a file that is not a direct
entry of that directory — files in sibling directories, in child
directories of the changed directory, anywhere else in the tree — is
identical in the two runs. -/

theorem gitignore_scoping (P : List String) (e1 e2 : FSEntry)
    (h : GitDiffAt P e1 e2) (relDir patterns : List String) (level : Nat) :
    classifiedOutside (relDir ++ P) (processEntry relDir patterns level e1) =
      classifiedOutside (relDir ++ P) (processEntry relDir patterns level e2) := by
  induction h generalizing relDir patterns level with
  | here name g1 g2 scanFails ch =>
    simp only [processEntry]
    split
    · rfl
    · rw [backup_directory, backup_directory]
      split
      · rfl
      · rw [classifiedOutside_app, classifiedOutside_app]
        congr 1
        cases scanFails with
        | true => rfl
        | false =>
          exact processChildren_classified_outside (relDir ++ [name])
            (load_gitignore_patterns g1) (load_gitignore_patterns g2)
            (level + 1) ch
  | deeper name git scanFails pre post P e1 e2 hsub ih =>
    simp only [processEntry]
    split
    · rfl
    · rw [backup_directory, backup_directory]
      split
      · rfl
      · rw [classifiedOutside_app, classifiedOutside_app]
        congr 1
        cases scanFails with
        | true => rfl
        | false =>
          rw [if_neg Bool.false_ne_true, if_neg Bool.false_ne_true]
          rw [processChildren_append, processChildren_append,
            processChildren, processChildren,
            classifiedOutside_app, classifiedOutside_app,
            classifiedOutside_app, classifiedOutside_app]
          congr 2
          have hP : relDir ++ name :: P = (relDir ++ [name]) ++ P := by
            rw [List.append_cons]
          rw [hP]
          exact ih (relDir ++ [name]) (load_gitignore_patterns git) (level + 1)

/-- C4 witness: changing subdirectory `a/`'s `.gitignore` (from
ignoring `b.xyz` to ignoring nothing) leaves every classification
decision outside `a/`'s own direct entries — here the file inside
`a/c/` — unchanged. -/

theorem gitignore_scoping_witness :
    classifiedOutside ["a"]
        (processEntry [] [] 0
          (FSEntry.dir "a" (GitFile.readable ["b.xyz"]) false
            [FSEntry.file "b.xyz" 1 false,
             FSEntry.dir "c" GitFile.absent false
               [FSEntry.file "b.xyz" 1 false]])) =
      classifiedOutside ["a"]
        (processEntry [] [] 0
          (FSEntry.dir "a" GitFile.absent false
            [FSEntry.file "b.xyz" 1 false,
             FSEntry.dir "c" GitFile.absent false
               [FSEntry.file "b.xyz" 1 false]])) :=
  gitignore_scoping ["a"] _ _
    (GitDiffAt.here "a" (GitFile.readable ["b.xyz"]) GitFile.absent false
      [FSEntry.file "b.xyz" 1 false,
       FSEntry.dir "c" GitFile.absent false [FSEntry.file "b.xyz" 1 false]])
    [] [] 0

/-- C5: the depth ceiling. The root call runs at level 0 and a
directory nested k levels below the root is processed by a call at
level k, which classifies that directory's direct entries. A call at
level ≤ 10 (depth exactly 10 included) processes the directory in
full; a call at level 11 or beyond — i.e. for a directory at depth
11+ — only logs the warning: it loads no gitignore, classifies and
copies nothing beneath, counts nothing, and in particular adds no
error, so the run continues with the remaining siblings. -/

theorem depth_limit (relDir : List String) (git : GitFile) (scanFails : Bool)
    (ch : List FSEntry) (level : Nat) :
    (10 < level →
      backup_directory relDir git scanFails ch level =
        ⟨0, 0, 0, 0, [], [], [], [relDir]⟩)
    ∧ (level ≤ 10 →
      backup_directory relDir git scanFails ch level =
        Trace.app ⟨0, 0, 0, 0, [], [], [relDir], []⟩
          (if scanFails then ⟨0, 0, 1, 0, [], [], [], []⟩
           else processChildren relDir (load_gitignore_patterns git) level ch)) := by
  constructor
  · intro h
    rw [backup_directory, if_pos h]
  · intro h
    rw [backup_directory, if_neg (by omega)]

/-- C5 witness: a call at level 11 yields exactly the warning trace
(no errors, nothing classified), and a call at level 10 still
processes: it loads the directory's gitignore. -/

theorem depth_limit_witness :
    backup_directory ["a"] GitFile.absent false [FSEntry.file "b.txt" 1 false] 11 =
        ⟨0, 0, 0, 0, [], [], [], [["a"]]⟩
    ∧ backup_directory ["a"] GitFile.absent false [] 10 =
        ⟨0, 0, 0, 0, [], [], [["a"]], []⟩ := by
  constructor
  · exact (depth_limit ["a"] GitFile.absent false
      [FSEntry.file "b.txt" 1 false] 11).1 (by decide)
  · rw [(depth_limit ["a"] GitFile.absent false [] 10).2 (by decide)]
    simp [processChildren, Trace.app, Trace.nil]

/-- C6 counterexample: with an unreadable `.gitignore` in the source
root and a single ordinary file beneath it, the error counter stays at
0 (the failure is only logged, not counted) and the file is still
copied (the subtree is not aborted) — contradicting the claim that the
failure is counted in the error statistic and aborts the subtree. -/

theorem gitignore_unreadable_not_counted :
    (backup_directory [] GitFile.unreadable false
        [FSEntry.file "a.xyz" 5 false] 0).errors = 0
    ∧ (backup_directory [] GitFile.unreadable false
        [FSEntry.file "a.xyz" 5 false] 0).copied = 1 := by
  have h : should_skip_file "a.xyz" "a.xyz" [] = false := by decide
  constructor <;>
    simp [backup_directory, processChildren, processEntry, handleFile,
      copy_file_safely, Trace.app, Trace.nil, load_gitignore_patterns,
      joinPath, h]

/-- C6 (amended): a directory whose `.gitignore` exists but cannot be
read behaves exactly as if it had no `.gitignore` at all — the failure
is caught (and logged) inside `load_gitignore_patterns`, is not counted
in the error statistic, and does not abort the subtree's processing. -/

theorem gitignore_unreadable_as_absent (relDir : List String)
    (scanFails : Bool) (ch : List FSEntry) (level : Nat) :
    backup_directory relDir GitFile.unreadable scanFails ch level =
      backup_directory relDir GitFile.absent scanFails ch level := by
  rw [backup_directory, backup_directory]
  simp only [load_gitignore_patterns]

/-- C7: with `--dry-run`, `main` does not run the backup and reports no
per-entry actions at all: the dry-run trace is empty — no classification
decisions, no would-be copies — even though a real run on the same
source would copy `notes.txt`. This contradicts the program's own help
text for `--dry-run` ("Show what would be copied without copying"). -/

theorem dry_run_reports_nothing :
    mainTrace true GitFile.absent false [FSEntry.file "notes.txt" 3 false] = Trace.nil
    ∧ (mainTrace false GitFile.absent false
        [FSEntry.file "notes.txt" 3 false]).copies = [["notes.txt"]] := by
  constructor
  · rfl
  · have h : should_skip_file "notes.txt" "notes.txt" [] = false := by decide
    simp [mainTrace, run_backup, backup_directory, processChildren, processEntry,
      handleFile, copy_file_safely, Trace.app, Trace.nil, load_gitignore_patterns,
      joinPath, h]

/-- C8: per-entry failures are contained. An entry whose processing
raises contributes exactly one error increment; a file whose copy fails
(after being classified keep) contributes its classification event and
one error increment, nothing else; and the loop over a directory's
entries is compositional — the trace of `e :: es` is the trace of `e`
followed by the trace of `es`, so one entry's failure never aborts the
processing of its siblings. -/

theorem per_entry_errors (relDir patterns : List String) (level : Nat)
    (name : String) (size : Nat) (es : List FSEntry) :
    (processEntry relDir patterns level (FSEntry.raising name) =
      ⟨0, 0, 1, 0, [], [], [], []⟩)
    ∧ (should_skip_file name (joinPath (relDir ++ [name])) patterns = false →
        processEntry relDir patterns level (FSEntry.file name size true) =
          ⟨0, 0, 1, 0, [], [(relDir ++ [name], false)], [], []⟩)
    ∧ (∀ e : FSEntry, processChildren relDir patterns level (e :: es) =
        Trace.app (processEntry relDir patterns level e)
          (processChildren relDir patterns level es)) := by
  refine ⟨?_, ?_, ?_⟩
  · simp only [processEntry]
  · intro h
    simp [processEntry, handleFile, copy_file_safely, h, Trace.app]
  · intro e
    simp only [processChildren]

/-- C8 witness: a kept file whose copy raises yields exactly one error
and its classification event. -/

theorem per_entry_errors_witness :
    processEntry [] [] 0 (FSEntry.file "notes.txt" 7 true) =
      ⟨0, 0, 1, 0, [], [(["notes.txt"], false)], [], []⟩ :=
  (per_entry_errors [] [] 0 "notes.txt" 7 []).2.1 (by decide)

/-- C9: the Skip-dirs rule is exact string equality of the bare
directory name against the set entries — absent keep-dotfile and
skip-pattern interference, a directory is pruned iff its name is
literally one of the entries — so entries containing glob characters or
path separators match only a directory literally bearing that name:
`*.log` is an entry yet `app.log` (which glob-matches it) is not in the
set, and `.cargo/registry` matches neither `registry` nor `git`. -/

theorem skip_dirs_literal (dirname relative_path : String) :
    ((∀ k ∈ keep_dotfiles, startswith relative_path k = false ∧ dirname ≠ k) →
     (∀ p ∈ skip_patterns, fnmatch dirname p = false) →
     (should_skip_directory dirname relative_path = true ↔
       ∃ e ∈ skip_dirs, dirname = e))
    ∧ (skip_dirs.contains "*.log" = true
       ∧ fnmatch "app.log" "*.log" = true
       ∧ skip_dirs.contains "app.log" = false
       ∧ skip_dirs.contains ".cargo/registry" = true
       ∧ skip_dirs.contains "registry" = false
       ∧ skip_dirs.contains "git" = false) := by
  constructor
  · intro hkeep hpat
    unfold should_skip_directory
    rw [if_neg ?_]
    · by_cases hc : skip_dirs.contains dirname
      · rw [if_pos hc]
        constructor
        · intro _
          exact ⟨dirname, List.mem_of_elem_eq_true hc, rfl⟩
        · intro _
          rfl
      · rw [if_neg hc, if_neg ?_]
        · simp only [Bool.false_eq_true, false_iff]
          rintro ⟨e, he, rfl⟩
          exact hc (List.elem_eq_true_of_mem he)
        · intro hany
          rw [List.any_eq_true] at hany
          obtain ⟨p, hp, hm⟩ := hany
          rw [hpat p hp] at hm
          cases hm
    · intro hany
      rw [List.any_eq_true] at hany
      obtain ⟨k, hk, hcase⟩ := hany
      have := hkeep k hk
      rw [Bool.or_eq_true] at hcase
      cases hcase with
      | inl h => rw [this.1] at h; cases h
      | inr h => exact this.2 (by simpa using h)
  · exact ⟨by decide, by decide, by decide, by decide, by decide, by decide⟩

/-- C9 witness: for `node_modules` (no keep-dotfile or skip-pattern
interference) the pruning decision is equivalent to literal membership
in Skip-dirs. -/

theorem skip_dirs_literal_witness :
    should_skip_directory "node_modules" "node_modules" = true ↔
      ∃ e ∈ skip_dirs, "node_modules" = e :=
  (skip_dirs_literal "node_modules" "node_modules").1 (by decide) (by decide)

/-- C10: a symbolic link to a directory, and a symbolic link whose
target does not exist, leave the whole trace untouched — no recursion,
no copy, and all four statistics counters unchanged. -/

theorem symlink_dir_and_broken_invisible (relDir patterns : List String)
    (level : Nat) (name : String) :
    processEntry relDir patterns level
        (FSEntry.symlink name SymTarget.toDir) = Trace.nil
    ∧ processEntry relDir patterns level
        (FSEntry.symlink name SymTarget.broken) = Trace.nil := by
  constructor <;> simp only [processEntry]

end MigrationPrep.Traversal
